import Mathlib

/-!
Verification of the DynamicScout AI proxy pool manager
(`src/scraper/proxy/proxy-manager.py` and `src/providers/luminati.py`).

The Python state is embedded as follows.  Proxy descriptors are Python
dicts whose optional fields are read with `.get`; they become a structure
of `Option` fields (with `host` and `port` always present, as the code
indexes them directly).  The manager's lists `self.proxies`,
`self.active_proxies` and `self.blacklisted_proxies` alias the same
dict objects: mutating a descriptor found through `self.proxies` is
visible through the other two lists.  We therefore keep one store
`proxies : List Descriptor` and represent `active_proxies` and
`blacklisted_proxies` as lists of indices into that store
(`activeIdx`, `blackIdx`); the *views* seen by Python are obtained by
dereferencing the indices.  The performance dict keyed by
`"{host}:{port}"` becomes an association list preserving insertion
order, matching Python dict semantics.  Timestamps are abstract `Nat`
instants (ISO-8601 strings round-trip exactly through
`datetime.fromisoformat`, so nothing is lost by this).  Python integer
floor division `//` on non-negative ints is `Nat` division.
`random.choice` and `random.uniform` are modelled by explicit
nondeterminism parameters (`pick`, `r`).
-/

/-- A proxy descriptor: the Python dict built by the providers and
mutated in place by the manager.  `host` and `port` are indexed
directly by the code (`proxy['host']`), every other field is read via
`.get` and may be absent. -/
structure Descriptor where
  host : String
  port : Nat
  username : Option String := none
  password : Option String := none
  protocol : Option String := none
  country : Option String := none
  provider : Option String := none
  zone : Option String := none
  is_active : Option Bool := none
  failure_count : Option Nat := none
  avg_response_time : Option Nat := none
  added_at : Option Nat := none
  last_checked : Option Nat := none
  last_used : Option Nat := none
  deriving DecidableEq, Repr

/-- A performance record, the value of `self.proxy_performance[proxy_id]`. -/
structure PerfRecord where
  total_requests : Nat := 0
  successful_requests : Nat := 0
  total_response_time : Nat := 0
  avg_response_time : Nat := 0
  last_success : Option Nat := none
  deriving DecidableEq, Repr

/-- The fresh record created by `report_proxy_result` /
`_check_single_proxy` when a key is first seen. -/
def defaultPerf : PerfRecord := {}

/-- The key `f"{proxy['host']}:{proxy['port']}"` used for the
performance dict and for the merge in `refresh_proxies`. -/
def proxyKey (p : Descriptor) : String :=
  p.host ++ (":") ++ toString p.port

/-- Out-of-range placeholder for index dereferencing (never reached on
the states the manager builds, where every stored index is in range). -/
def defaultDescriptor : Descriptor := { host := (""), port := 0 }

/-- Dereference index `i` of the descriptor store. -/
def dget (ps : List Descriptor) (i : Nat) : Descriptor :=
  (ps.get? i).getD defaultDescriptor

/-- In-place mutation of the dict at position `i` (Python mutates the
object; every list holding a reference to it sees the change). -/
def listModify : List Descriptor → Nat → (Descriptor → Descriptor) → List Descriptor
  | [], _, _ => []
  | p :: rest, 0, f => f p :: rest
  | p :: rest, n + 1, f => p :: listModify rest n f

/-- Python dict lookup on the performance association list. -/
def lookupPerf : List (String × PerfRecord) → String → Option PerfRecord
  | [], _ => none
  | (k0, v0) :: rest, k => if k0 = k then some v0 else lookupPerf rest k

/-- Python dict assignment: overwrite the existing entry in place, or
append a new entry at the end (insertion order is preserved). -/
def setPerf : List (String × PerfRecord) → String → PerfRecord → List (String × PerfRecord)
  | [], k, v => [(k, v)]
  | (k0, v0) :: rest, k, v =>
      if k0 = k then (k0, v) :: rest else (k0, v0) :: setPerf rest k v

/-- `p.get('is_active', True)`: a descriptor lacking the key counts as
active. -/
def isActiveD (p : Descriptor) : Bool :=
  p.is_active.getD true

/-- The recomputation `[p for p in self.proxies if p.get('is_active', True)]`,
as the list of store indices it retains. -/
def derivedActiveIdx (ps : List Descriptor) : List Nat :=
  (List.range ps.length).filter (fun i => isActiveD (dget ps i))

/-- The in-memory state of `ProxyManager` (the fields guarded by
`self.lock`).  `activeIdx` and `blackIdx` are `self.active_proxies` and
`self.blacklisted_proxies` as indices into `proxies`. -/
structure PMState where
  proxies : List Descriptor
  activeIdx : List Nat
  blackIdx : List Nat
  performance : List (String × PerfRecord)
  last_refresh : Option Nat
  deriving DecidableEq, Repr

/-- The state of a freshly constructed manager with no cache file. -/
def initState : PMState :=
  { proxies := [], activeIdx := [], blackIdx := [], performance := [], last_refresh := none }

/-- The descriptor values visible through `self.blacklisted_proxies`. -/
def blacklisted_view (s : PMState) : List Descriptor :=
  s.blackIdx.map (dget s.proxies)

/-- First index whose dict matches
`p['host'] == proxy['host'] and p['port'] == proxy['port']`
(both update loops in `report_proxy_result` stop at the first match). -/
def findPairIdx : List Descriptor → String → Nat → Option Nat
  | [], _, _ => none
  | p :: rest, h, pn =>
      if p.host = h ∧ p.port = pn then some 0
      else (findPairIdx rest h pn).map (fun n => n + 1)

/-- `ProxyManager.report_proxy_result`.  `proxy = none` models a falsy
argument (the guard `if not proxy: return`); `rt` is the optional
`response_time` argument, whose Python truthiness test `if response_time:`
skips both `None` and `0`; `t` is the current time.  The probabilistic
snapshot write does not change the in-memory state and is not modelled
here (persistence is modelled by `save_proxies`). -/
def report_proxy_result (s : PMState) (proxy : Option Descriptor) (success : Bool)
    (rt : Option Nat) (t : Nat) : PMState :=
  match proxy with
  | none => s
  | some pr =>
    let k := proxyKey pr
    let perf0 := (lookupPerf s.performance k).getD defaultPerf
    let perf1 := { perf0 with total_requests := perf0.total_requests + 1 }
    if success then
      let perf2 := { perf1 with
        successful_requests := perf1.successful_requests + 1,
        last_success := some t }
      let perf3 :=
        match rt with
        | none => perf2
        | some v =>
          if v = 0 then perf2
          else
            { perf2 with
              total_response_time := perf2.total_response_time + v,
              avg_response_time :=
                (perf2.total_response_time + v) / perf2.successful_requests }
      let ps2 :=
        match findPairIdx s.proxies pr.host pr.port with
        | none => s.proxies
        | some i => listModify s.proxies i (fun p => { p with failure_count := some 0 })
      { s with proxies := ps2, performance := setPerf s.performance k perf3 }
    else
      match findPairIdx s.proxies pr.host pr.port with
      | none => { s with performance := setPerf s.performance k perf1 }
      | some i =>
        let fc := (dget s.proxies i).failure_count.getD 0 + 1
        if 3 ≤ fc then
          let ps2 := listModify s.proxies i
            (fun p => { p with failure_count := some fc, is_active := some false })
          { s with proxies := ps2,
                   blackIdx := s.blackIdx ++ [i],
                   activeIdx := derivedActiveIdx ps2,
                   performance := setPerf s.performance k perf1 }
        else
          { s with proxies := listModify s.proxies i
                     (fun p => { p with failure_count := some fc }),
                   performance := setPerf s.performance k perf1 }

/-- The merge loop of `refresh_proxies`: walk the provider's list,
skipping every descriptor whose `"{host}:{port}"` key is already known,
and appending the rest marked active with `added_at` set. -/
def mergeProxies : List Descriptor → List Descriptor → List String → Nat → List Descriptor
  | ps, [], _, _ => ps
  | ps, p :: rest, keys, t =>
      let k := proxyKey p
      if k ∈ keys then mergeProxies ps rest keys t
      else mergeProxies (ps ++ [{ p with is_active := some true, added_at := some t }])
             rest (keys ++ [k]) t

/-- `ProxyManager.refresh_proxies` in the enabled case, with the
provider's result passed in as `new` (the fetch itself is network I/O).
An empty provider result returns early without touching `last_refresh`. -/
def refresh_proxies (s : PMState) (new : List Descriptor) (t : Nat) : PMState :=
  if new = [] then s
  else
    let ps2 := mergeProxies s.proxies new (s.proxies.map proxyKey) t
    { s with proxies := ps2, activeIdx := derivedActiveIdx ps2, last_refresh := some t }

/-- Outcome of one health probe (`_check_single_proxy` inside
`asyncio.gather(..., return_exceptions=True)`): an exception, a failed
validation, or a success with its measured latency. -/
inductive HOutcome
  | err
  | bad
  | good (rt : Nat)
  deriving DecidableEq, Repr

/-- The perf/descriptor update a successful `_check_single_proxy` makes
for the proxy at store index `i`. -/
def health_single_success (s : PMState) (i : Nat) (rt t : Nat) : PMState :=
  let p := dget s.proxies i
  let k := proxyKey p
  let perf0 := (lookupPerf s.performance k).getD defaultPerf
  let perf1 := { perf0 with
    total_requests := perf0.total_requests + 1,
    successful_requests := perf0.successful_requests + 1 }
  let trt := perf1.total_response_time + rt
  let avg := trt / perf1.successful_requests
  let perf2 := { perf1 with
    total_response_time := trt,
    avg_response_time := avg,
    last_success := some t }
  { s with
    performance := setPerf s.performance k perf2,
    proxies := listModify s.proxies i
      (fun q => { q with last_checked := some t, avg_response_time := some avg }) }

/-- One iteration of the result-processing loop of `_check_proxy_health`:
reset the failure count on success, increment it on failure and
blacklist at three strikes.  The loop does not refresh `active_proxies`
(that happens once, after the loop). -/
def health_process (st : PMState) (i : Nat) (ok : Bool) : PMState :=
  if ok then
    { st with proxies := listModify st.proxies i (fun p => { p with failure_count := some 0 }) }
  else
    let fc := (dget st.proxies i).failure_count.getD 0 + 1
    if 3 ≤ fc then
      { st with
        proxies := listModify st.proxies i
          (fun p => { p with failure_count := some fc, is_active := some false }),
        blackIdx := st.blackIdx ++ [i] }
    else
      { st with proxies := listModify st.proxies i (fun p => { p with failure_count := some fc }) }

/-- `ProxyManager._check_proxy_health`: the probe tasks all complete
before the processing loop runs, so the tick is the fold of the
successful probes' perf updates, then the fold of the failure-count
processing over the same (pre-tick) active list, then the recomputation
of the active view.  `out i` is the probe outcome for store index `i`. -/
def check_proxy_health (s : PMState) (out : Nat → HOutcome) (t : Nat) : PMState :=
  let s1 := s.activeIdx.foldl
    (fun st i => match out i with
      | HOutcome.good rt => health_single_success st i rt t
      | _ => st) s
  let s2 := s.activeIdx.foldl
    (fun st i => match out i with
      | HOutcome.err => st
      | HOutcome.bad => health_process st i false
      | HOutcome.good _ => health_process st i true) s1
  { s2 with activeIdx := derivedActiveIdx s2.proxies }

/-- The weight `1000 // rt if rt > 0 else 1000` computed by `get_proxy`
for one candidate, where `rt = p.get('avg_response_time', 500)`. -/
def selectionWeight (p : Descriptor) : Nat :=
  let rt := p.avg_response_time.getD 500
  if 0 < rt then 1000 / rt else 1000

/-- The cumulative-weight walk of `get_proxy`: accumulate weights until
the running sum reaches `r`; the `for`/`else` fallthrough returns the
last candidate. -/
def weightedWalk (ps : List Descriptor) (r : Nat) : List Nat → Nat → Nat → Nat
  | [], _, lastI => lastI
  | i :: rest, acc, _ =>
      let w := selectionWeight (dget ps i)
      if r ≤ acc + w then i else weightedWalk ps r rest (acc + w) i

/-- The country pass of `get_proxy`.  Python truthiness: a `country`
argument of `None` or `""` skips the filter. -/
def countryFilter (s : PMState) (c : Option String) : List Nat :=
  match c with
  | none => s.activeIdx
  | some cc =>
    if cc = ("") then s.activeIdx
    else s.activeIdx.filter (fun i => decide ((dget s.proxies i).country = some cc))

/-- The latency pass of `get_proxy`.  A `max_response_time` of `None` or
`0` skips the filter, as does an already empty candidate list; a proxy
with no recorded latency is compared through the sentinel
`p.get('avg_response_time', 999999)`. -/
def rtFilter (s : PMState) (f1 : List Nat) (m : Option Nat) : List Nat :=
  match m with
  | none => f1
  | some mv =>
    if mv = 0 ∨ f1 = [] then f1
    else f1.filter (fun i => decide ((dget s.proxies i).avg_response_time.getD 999999 ≤ mv))

/-- Both filter passes of `get_proxy`. -/
def filteredCandidates (s : PMState) (c : Option String) (m : Option Nat) : List Nat :=
  rtFilter s (countryFilter s c) m

/-- The index `get_proxy` selects, or `none`.  `pick` models
`random.choice` (taken modulo the candidate count) and `r` models
`random.uniform(0, total_weight)`.  A total weight of zero falls back to
uniform choice. -/
def get_proxy_idx (u : Bool) (s : PMState) (c : Option String) (m : Option Nat)
    (pick r : Nat) : Option Nat :=
  if u = false ∨ s.activeIdx = [] then none
  else
    let f2 := filteredCandidates s c m
    if f2 = [] then none
    else if f2.length ≤ 3 then some (f2.getD (pick % f2.length) 0)
    else
      let total := (f2.map (fun i => selectionWeight (dget s.proxies i))).sum
      if total = 0 then some (f2.getD (pick % f2.length) 0)
      else some (weightedWalk s.proxies r f2 0 0)

/-- `ProxyManager.get_proxy`: select a candidate, stamp its `last_used`
(mutating the shared dict, hence the store), and return the descriptor
together with the updated state. -/
def get_proxy (u : Bool) (s : PMState) (c : Option String) (m : Option Nat)
    (pick r t : Nat) : Option (Descriptor × PMState) :=
  match get_proxy_idx u s c m pick r with
  | none => none
  | some i =>
    let ps2 := listModify s.proxies i (fun p => { p with last_used := some t })
    some (dget ps2 i, { s with proxies := ps2 })

/-- The state after a `get_proxy` call (unchanged when it returns `None`). -/
def select_step (u : Bool) (s : PMState) (c : Option String) (m : Option Nat)
    (pick r t : Nat) : PMState :=
  match get_proxy u s c m pick r t with
  | none => s
  | some x => x.2

/-- The snapshot object `_save_proxies` writes to `proxy_cache.json`. -/
structure Snapshot where
  proxies : List Descriptor
  performance : List (String × PerfRecord)
  blacklisted : List Descriptor
  last_refresh : Option Nat
  deriving DecidableEq, Repr

/-- `ProxyManager._save_proxies` called at time `t`: it serialises the
current lists and stamps `last_refresh` with `datetime.now().isoformat()`
— the wall clock at save time, not `self.last_refresh`. -/
def save_proxies (s : PMState) (t : Nat) : Snapshot :=
  { proxies := s.proxies,
    performance := s.performance,
    blacklisted := blacklisted_view s,
    last_refresh := some t }

/-- The fields `_load_saved_proxies` populates from a parsed snapshot.
After a restart the blacklist entries are fresh objects (JSON loading
breaks the aliasing), so they are plain descriptor values here, while
the recomputed active view is again a list of store indices. -/
structure LoadedStore where
  proxies : List Descriptor
  performance : List (String × PerfRecord)
  blacklisted : List Descriptor
  last_refresh : Option Nat
  activeIdx : List Nat
  deriving DecidableEq, Repr

/-- `ProxyManager._load_saved_proxies` on a successfully parsed snapshot:
copy the three collections, parse `last_refresh`, and recompute the
active view with the `is_active`-absent-means-active filter. -/
def load_saved_proxies (snap : Snapshot) : LoadedStore :=
  { proxies := snap.proxies,
    performance := snap.performance,
    blacklisted := snap.blacklisted,
    last_refresh := snap.last_refresh,
    activeIdx := derivedActiveIdx snap.proxies }

/-- The fixed country list of `LuminatiProvider._generate_zone_proxies`. -/
def luminatiCountries : List String :=
  [("us"), ("gb"), ("ca"), ("de"), ("fr"), ("au"), ("jp"), ("it"), ("nl"),
   ("br"), ("es"), ("in"), ("mx"), ("sg"), ("kr"), ("ch"), ("se"), ("no")]

/-- One country descriptor synthesised by `_generate_zone_proxies`. -/
def mkCountryProxy (user zone pw cc : String) : Descriptor :=
  { host := ("zproxy.lum-superproxy.io"),
    port := 22225,
    username := some (user ++ ("-zone-") ++ zone ++ ("-country-") ++ cc),
    password := some pw,
    protocol := some ("http"),
    country := some cc,
    provider := some ("luminati"),
    is_active := some true }

/-- One rotating descriptor synthesised by `_generate_zone_proxies`. -/
def mkRotatingProxy (user zone pw : String) : Descriptor :=
  { host := ("zproxy.lum-superproxy.io"),
    port := 22225,
    username := some (user ++ ("-zone-") ++ zone),
    password := some pw,
    protocol := some ("http"),
    country := some ("any"),
    provider := some ("luminati"),
    is_active := some true }

/-- `LuminatiProvider._generate_zone_proxies`: one descriptor per listed
country, then five identical rotating entries. -/
def generate_zone_proxies (user zone pw : String) : List Descriptor :=
  luminatiCountries.map (mkCountryProxy user zone pw)
    ++ List.replicate 5 (mkRotatingProxy user zone pw)

/-- The forward half of the three-strike rule: every stored descriptor
with at least three recorded failures has been deactivated and appears
on the blacklist. -/
def tsfList (ps : List Descriptor) (bl : List Nat) : Prop :=
  ∀ i ∈ List.range ps.length,
    3 ≤ (dget ps i).failure_count.getD 0 →
    (dget ps i).is_active = some false ∧ i ∈ bl

/-- `tsfList` for the live manager state: read through `self.proxies`
and `self.blacklisted_proxies`. -/
def threeStrikeFwd (s : PMState) : Prop :=
  tsfList s.proxies s.blackIdx

instance (ps : List Descriptor) (bl : List Nat) : Decidable (tsfList ps bl) := by
  unfold tsfList
  infer_instance

instance (s : PMState) : Decidable (threeStrikeFwd s) := by
  unfold threeStrikeFwd
  infer_instance

/-- One record's counter bound. -/
def perfB (r : PerfRecord) : Prop :=
  r.successful_requests ≤ r.total_requests

/-- One record's average equation. -/
def perfA (r : PerfRecord) : Prop :=
  r.avg_response_time =
    (if r.successful_requests = 0 then 0
     else r.total_response_time / r.successful_requests)

/-- Every record satisfies `successful_requests ≤ total_requests`. -/
def perfBoundOK (s : PMState) : Prop :=
  ∀ kr ∈ s.performance, perfB kr.2

/-- Every record satisfies the claimed average equation. -/
def perfAvgOK (s : PMState) : Prop :=
  ∀ kr ∈ s.performance, perfA kr.2

instance (r : PerfRecord) : Decidable (perfA r) := by
  unfold perfA
  infer_instance

/-- The weight formula of the *spec's words* for claim C4 (named after the
spec, for refinement comparison with `selectionWeight` from the source):
`1000 // avg_rt` when a positive average is recorded, else `1000`, with
unmeasured proxies claimed to fall in the `1000` branch. -/
def specWeight (p : Descriptor) : Nat :=
  match p.avg_response_time with
  | some rt => if 0 < rt then 1000 / rt else 1000
  | none => 1000

/-- A minimal descriptor used in concrete scenarios. -/
def dH : Descriptor := { host := ("h"), port := 1 }

/-- A descriptor whose `(host, port)` never enters the pool. -/
def dX : Descriptor := { host := ("x"), port := 9 }

/-- A descriptor with no recorded average response time. -/
def dNoRt : Descriptor := { host := ("h"), port := 2 }

/-- A descriptor with a recorded 250 ms average. -/
def dRt250 : Descriptor := { host := ("h"), port := 3, avg_response_time := some 250 }

/-- A descriptor whose dict lacks the `is_active` key entirely. -/
def dAbsent : Descriptor := { host := ("h"), port := 4 }

/-- An active `us` descriptor with a recorded 100 ms average. -/
def dUS : Descriptor :=
  { host := ("h"), port := 1, country := some ("us"), is_active := some true,
    avg_response_time := some 100 }

/-- An active descriptor with a recorded 500 ms average. -/
def dp500 : Descriptor :=
  { host := ("h"), port := 1, is_active := some true, avg_response_time := some 500 }

/-- The pool after one refresh that pulled the single descriptor `dH`. -/
def refreshedPool : PMState := refresh_proxies initState [dH] 0

/-- A one-descriptor pool whose only proxy averages 500 ms. -/
def sC2 : PMState :=
  { proxies := [dp500], activeIdx := [0], blackIdx := [], performance := [],
    last_refresh := none }

/-- A one-descriptor pool with the `us` proxy `dUS`. -/
def sCW : PMState :=
  { proxies := [dUS], activeIdx := [0], blackIdx := [], performance := [],
    last_refresh := none }

/-- Three failure reports against `dH`, then one success report. -/
def c1state : PMState :=
  report_proxy_result (report_proxy_result (report_proxy_result (report_proxy_result
    refreshedPool (some dH) false none 1) (some dH) false none 2)
    (some dH) false none 3) (some dH) true none 4

/-- Three failure reports against `dH`: the proxy is blacklisted while
remaining in `proxies`. -/
def c6state : PMState :=
  report_proxy_result (report_proxy_result (report_proxy_result
    refreshedPool (some dH) false none 1) (some dH) false none 2)
    (some dH) false none 3

/-- A success report carrying 1000 ms, then a success report carrying no
response time. -/
def c7state : PMState :=
  report_proxy_result (report_proxy_result refreshedPool
    (some dH) true (some 1000) 1) (some dH) true none 2


/-- One operation of the manager, as observable on the shared state:
a provider refresh, a caller report, a health-check tick with its vector
of probe outcomes, or a selection. -/
inductive Step : PMState → PMState → Prop
  | refresh (s : PMState) (new : List Descriptor) (t : Nat) :
      Step s (refresh_proxies s new t)
  | report (s : PMState) (proxy : Option Descriptor) (success : Bool)
      (rt : Option Nat) (t : Nat) :
      Step s (report_proxy_result s proxy success rt t)
  | health (s : PMState) (out : Nat → HOutcome) (t : Nat) :
      Step s (check_proxy_health s out t)
  | select (s : PMState) (u : Bool) (c : Option String) (m : Option Nat)
      (pick r t : Nat) :
      Step s (select_step u s c m pick r t)

/-- States reachable from the initial empty pool by any interleaving of
the four operations. -/
def Reachable (s : PMState) : Prop :=
  Relation.ReflTransGen Step initState s

/-- Reporter/health-loop operations only (the operations quantified by
the three-strike claim). -/
inductive StepRH : PMState → PMState → Prop
  | report (s : PMState) (proxy : Option Descriptor) (success : Bool)
      (rt : Option Nat) (t : Nat) :
      StepRH s (report_proxy_result s proxy success rt t)
  | health (s : PMState) (out : Nat → HOutcome) (t : Nat) :
      StepRH s (check_proxy_health s out t)

/-- States reachable from `s0` by reports and health-check outcomes. -/
def ReachRH (s0 s : PMState) : Prop :=
  Relation.ReflTransGen StepRH s0 s

/-- The four operations, with success reports restricted to carry a
truthy (non-`None`, non-zero) response time. -/
inductive StepT : PMState → PMState → Prop
  | refresh (s : PMState) (new : List Descriptor) (t : Nat) :
      StepT s (refresh_proxies s new t)
  | report (s : PMState) (proxy : Option Descriptor) (success : Bool)
      (rt : Option Nat) (t : Nat)
      (ht : success = true → ∃ v, rt = some v ∧ 0 < v) :
      StepT s (report_proxy_result s proxy success rt t)
  | health (s : PMState) (out : Nat → HOutcome) (t : Nat) :
      StepT s (check_proxy_health s out t)
  | select (s : PMState) (u : Bool) (c : Option String) (m : Option Nat)
      (pick r t : Nat) :
      StepT s (select_step u s c m pick r t)

/-- States reachable from the empty pool when every success report
supplies a positive response time. -/
def ReachableT (s : PMState) : Prop :=
  Relation.ReflTransGen StepT initState s

/- ### Basic lemmas about the store primitives -/

theorem length_listModify (l : List Descriptor) (i : Nat) (f : Descriptor → Descriptor) :
    (listModify l i f).length = l.length := by
  induction l generalizing i with
  | nil => rfl
  | cons p rest ih =>
    cases i with
    | zero => rfl
    | succ n => simpa [listModify] using ih n

theorem dget_listModify_ne (l : List Descriptor) (i j : Nat) (f : Descriptor → Descriptor)
    (h : j ≠ i) : dget (listModify l i f) j = dget l j := by
  induction l generalizing i j with
  | nil => rfl
  | cons p rest ih =>
    cases i with
    | zero =>
      cases j with
      | zero => exact absurd rfl h
      | succ m => simp [listModify, dget]
    | succ n =>
      cases j with
      | zero => simp [listModify, dget]
      | succ m =>
        have := ih n m (fun hc => h (by omega))
        simpa [listModify, dget] using this

theorem dget_listModify_self (l : List Descriptor) (i : Nat) (f : Descriptor → Descriptor)
    (h : i < l.length) : dget (listModify l i f) i = f (dget l i) := by
  induction l generalizing i with
  | nil => simp at h
  | cons p rest ih =>
    cases i with
    | zero => simp [listModify, dget]
    | succ n =>
      have := ih n (by simpa using h)
      simpa [listModify, dget] using this

theorem listModify_out_of_range (l : List Descriptor) (i : Nat) (f : Descriptor → Descriptor)
    (h : l.length ≤ i) : listModify l i f = l := by
  induction l generalizing i with
  | nil => rfl
  | cons p rest ih =>
    cases i with
    | zero => simp at h
    | succ n => simp [listModify, ih n (by simpa using h)]

theorem map_key_listModify (l : List Descriptor) (i : Nat) (f : Descriptor → Descriptor)
    (hf : ∀ p, proxyKey (f p) = proxyKey p) :
    (listModify l i f).map proxyKey = l.map proxyKey := by
  induction l generalizing i with
  | nil => rfl
  | cons p rest ih =>
    cases i with
    | zero => simp [listModify, hf]
    | succ n => simp [listModify, ih n]

theorem derivedActiveIdx_listModify (l : List Descriptor) (i : Nat)
    (f : Descriptor → Descriptor) (hf : ∀ p, isActiveD (f p) = isActiveD p) :
    derivedActiveIdx (listModify l i f) = derivedActiveIdx l := by
  unfold derivedActiveIdx
  rw [length_listModify]
  apply List.filter_congr
  intro j hj
  rcases eq_or_ne j i with rfl | hne
  · rcases Nat.lt_or_ge j l.length with hlt | hge
    · rw [dget_listModify_self l j f hlt, hf]
    · rw [listModify_out_of_range l j f hge]
  · rw [dget_listModify_ne l i j f hne]

theorem mem_derivedActiveIdx (ps : List Descriptor) (i : Nat) :
    i ∈ derivedActiveIdx ps ↔ i < ps.length ∧ isActiveD (dget ps i) = true := by
  simp [derivedActiveIdx, List.mem_filter, List.mem_range]

theorem lookupPerf_mem (m : List (String × PerfRecord)) (k : String) (v : PerfRecord)
    (h : lookupPerf m k = some v) : (k, v) ∈ m := by
  induction m with
  | nil => simp [lookupPerf] at h
  | cons kv rest ih =>
    obtain ⟨k0, v0⟩ := kv
    by_cases hk : k0 = k
    · subst hk
      simp [lookupPerf] at h
      subst h
      exact List.mem_cons_self _ _
    · simp [lookupPerf, hk] at h
      exact List.mem_cons_of_mem _ (ih h)

theorem mem_setPerf (m : List (String × PerfRecord)) (k : String) (v : PerfRecord)
    (x : String × PerfRecord) (h : x ∈ setPerf m k v) : x = (k, v) ∨ x ∈ m := by
  induction m with
  | nil => simpa [setPerf] using h
  | cons kv rest ih =>
    obtain ⟨k0, v0⟩ := kv
    by_cases hk : k0 = k
    · subst hk
      simp [setPerf] at h
      rcases h with h | h
      · left; simp [h]
      · right; exact List.mem_cons_of_mem _ h
    · simp [setPerf, hk] at h
      rcases h with h | h
      · right; simp [h]
      · rcases ih h with h1 | h1
        · left; exact h1
        · right; exact List.mem_cons_of_mem _ h1

theorem lookupPerf_setPerf_self (m : List (String × PerfRecord)) (k : String) (v : PerfRecord) :
    lookupPerf (setPerf m k v) k = some v := by
  induction m with
  | nil => simp [setPerf, lookupPerf]
  | cons kv rest ih =>
    obtain ⟨k0, v0⟩ := kv
    by_cases hk : k0 = k
    · subst hk; simp [setPerf, lookupPerf]
    · simp [setPerf, lookupPerf, hk, ih]

theorem lookupPerf_setPerf_ne (m : List (String × PerfRecord)) (k k2 : String) (v : PerfRecord)
    (h : k2 ≠ k) : lookupPerf (setPerf m k v) k2 = lookupPerf m k2 := by
  induction m with
  | nil => simp [setPerf, lookupPerf, Ne.symm h]
  | cons kv rest ih =>
    obtain ⟨k0, v0⟩ := kv
    by_cases hk : k0 = k
    · simp [setPerf, lookupPerf, hk, Ne.symm h]
    · by_cases hk2 : k0 = k2
      · simp [setPerf, lookupPerf, hk2, h]
      · simp [setPerf, lookupPerf, hk, hk2, ih]

theorem findPairIdx_none (l : List Descriptor) (h : String) (pn : Nat)
    (hnone : findPairIdx l h pn = none) : ∀ q ∈ l, ¬(q.host = h ∧ q.port = pn) := by
  induction l with
  | nil => intro q hq; simp at hq
  | cons p rest ih =>
    intro q hq
    by_cases hp : p.host = h ∧ p.port = pn
    · simp [findPairIdx, hp] at hnone
    · simp [findPairIdx, hp] at hnone
      rcases List.mem_cons.mp hq with rfl | hq2
      · exact hp
      · exact ih hnone q hq2

theorem findPairIdx_of_not_found (l : List Descriptor) (h : String) (pn : Nat)
    (hq : ∀ q ∈ l, ¬(q.host = h ∧ q.port = pn)) : findPairIdx l h pn = none := by
  induction l with
  | nil => rfl
  | cons p rest ih =>
    have hp := hq p (List.mem_cons_self _ _)
    simp [findPairIdx, hp]
    exact ih (fun q hq2 => hq q (List.mem_cons_of_mem _ hq2))

theorem findPairIdx_some (l : List Descriptor) (h : String) (pn : Nat) (i : Nat)
    (hsome : findPairIdx l h pn = some i) :
    i < l.length ∧ (dget l i).host = h ∧ (dget l i).port = pn := by
  induction l generalizing i with
  | nil => simp [findPairIdx] at hsome
  | cons p rest ih =>
    by_cases hp : p.host = h ∧ p.port = pn
    · simp [findPairIdx, hp] at hsome
      subst hsome
      exact ⟨Nat.succ_pos _, by simpa [dget] using hp⟩
    · simp [findPairIdx, hp] at hsome
      obtain ⟨n, hn, rfl⟩ := hsome
      obtain ⟨h1, h2⟩ := ih n hn
      exact ⟨by simpa using h1, by simpa [dget] using h2⟩

theorem foldl_preserve {σ β : Type} {P : σ → Prop} (f : σ → β → σ)
    (hf : ∀ st i, P st → P (f st i)) :
    ∀ (l : List β) (s : σ), P s → P (l.foldl f s) := by
  intro l
  induction l with
  | nil => intro s hs; simpa using hs
  | cons b rest ih => intro s hs; exact ih (f s b) (hf s b hs)

theorem walk_mem_or_last (ps : List Descriptor) (r : Nat) :
    ∀ (l : List Nat) (acc lastI : Nat),
      weightedWalk ps r l acc lastI ∈ l ∨ weightedWalk ps r l acc lastI = lastI := by
  intro l
  induction l with
  | nil => intro acc lastI; right; rfl
  | cons i rest ih =>
    intro acc lastI
    unfold weightedWalk
    by_cases hc : r ≤ acc + selectionWeight (dget ps i)
    · simp [hc]
    · simp [hc]
      rcases ih (acc + selectionWeight (dget ps i)) i with h1 | h1
    
      · left; right; exact h1
      · left; left; exact h1

theorem walk_mem (ps : List Descriptor) (r : Nat) (l : List Nat) (acc lastI : Nat)
    (h : l ≠ []) : weightedWalk ps r l acc lastI ∈ l := by
  cases l with
  | nil => exact absurd rfl h
  | cons i rest =>
    unfold weightedWalk
    by_cases hc : r ≤ acc + selectionWeight (dget ps i)
    · simp [hc]
    · simp [hc]
      rcases walk_mem_or_last ps r rest (acc + selectionWeight (dget ps i)) i with h1 | h1
      · right; exact h1
      · left; exact h1

/- ### Key uniqueness machinery (claim C6) -/

theorem report_map_key (s : PMState) (pr : Option Descriptor) (b : Bool)
    (rt : Option Nat) (t : Nat) :
    (report_proxy_result s pr b rt t).proxies.map proxyKey = s.proxies.map proxyKey := by
  cases pr with
  | none => rfl
  | some p =>
    cases b with
    | true =>
      cases hf : findPairIdx s.proxies p.host p.port with
      | none => simp [report_proxy_result, hf]
      | some i =>
        simp only [report_proxy_result, hf]
        exact map_key_listModify _ _ _ (fun q => rfl)
    | false =>
      cases hf : findPairIdx s.proxies p.host p.port with
      | none => simp [report_proxy_result, hf]
      | some i =>
        by_cases h3 : 3 ≤ (dget s.proxies i).failure_count.getD 0 + 1
        · simp only [report_proxy_result, hf, h3, if_true, if_pos h3]
          exact map_key_listModify _ _ _ (fun q => rfl)
        · simp only [report_proxy_result, hf, if_neg h3]
          exact map_key_listModify _ _ _ (fun q => rfl)

theorem hss_map_key (s : PMState) (i rt t : Nat) :
    (health_single_success s i rt t).proxies.map proxyKey = s.proxies.map proxyKey := by
  simp only [health_single_success]
  exact map_key_listModify _ _ _ (fun q => rfl)

theorem hp_map_key (st : PMState) (i : Nat) (ok : Bool) :
    (health_process st i ok).proxies.map proxyKey = st.proxies.map proxyKey := by
  cases ok with
  | true =>
    simp only [health_process, if_true]
    exact map_key_listModify _ _ _ (fun q => rfl)
  | false =>
    by_cases h3 : 3 ≤ (dget st.proxies i).failure_count.getD 0 + 1
    · simp only [health_process, if_pos h3, Bool.false_eq_true, if_false]
      exact map_key_listModify _ _ _ (fun q => rfl)
    · simp only [health_process, if_neg h3, Bool.false_eq_true, if_false]
      exact map_key_listModify _ _ _ (fun q => rfl)

theorem health_map_key (s : PMState) (out : Nat → HOutcome) (t : Nat) :
    (check_proxy_health s out t).proxies.map proxyKey = s.proxies.map proxyKey := by
  unfold check_proxy_health
  have h1 : ∀ (l : List Nat) (st : PMState),
      st.proxies.map proxyKey = s.proxies.map proxyKey →
      ((l.foldl (fun st i => match out i with
        | HOutcome.good rt => health_single_success st i rt t
        | _ => st) st).proxies.map proxyKey) = s.proxies.map proxyKey := by
    intro l
    refine foldl_preserve _ ?_ l
    intro st i hst
    cases ho : out i with
    | err => exact hst
    | bad => exact hst
    | good rt => exact (hss_map_key st i rt t).trans hst
  have h2 : ∀ (l : List Nat) (st : PMState),
      st.proxies.map proxyKey = s.proxies.map proxyKey →
      ((l.foldl (fun st i => match out i with
        | HOutcome.err => st
        | HOutcome.bad => health_process st i false
        | HOutcome.good _ => health_process st i true) st).proxies.map proxyKey)
        = s.proxies.map proxyKey := by
    intro l
    refine foldl_preserve _ ?_ l
    intro st i hst
    cases ho : out i with
    | err => exact hst
    | bad => exact (hp_map_key st i false).trans hst
    | good rt => exact (hp_map_key st i true).trans hst
  exact h2 _ _ (h1 _ _ rfl)

theorem select_map_key (u : Bool) (s : PMState) (c : Option String) (m : Option Nat)
    (pick r t : Nat) :
    (select_step u s c m pick r t).proxies.map proxyKey = s.proxies.map proxyKey := by
  cases hgi : get_proxy_idx u s c m pick r with
  | none => simp [select_step, get_proxy, hgi]
  | some i =>
    simp only [select_step, get_proxy, hgi]
    exact map_key_listModify _ _ _ (fun q => rfl)

theorem merge_nodup : ∀ (new ps : List Descriptor) (keys : List String) (t : Nat),
    keys = ps.map proxyKey → keys.Nodup →
    ((mergeProxies ps new keys t).map proxyKey).Nodup := by
  intro new
  induction new with
  | nil =>
    intro ps keys t hk hn
    rw [mergeProxies]
    exact hk ▸ hn
  | cons p rest ih =>
    intro ps keys t hk hn
    rw [mergeProxies]
    by_cases hmem : proxyKey p ∈ keys
    · simp only [hmem, if_true]
      exact ih ps keys t hk hn
    · simp only [hmem, if_false]
      apply ih _ _ t
      · rw [hk]
        simp [proxyKey]
      · simp [List.nodup_append, hn, hmem]

theorem refresh_keys_nodup (s : PMState) (new : List Descriptor) (t : Nat)
    (h : (s.proxies.map proxyKey).Nodup) :
    ((refresh_proxies s new t).proxies.map proxyKey).Nodup := by
  by_cases hN : new = []
  · simpa [refresh_proxies, hN] using h
  · simp only [refresh_proxies, hN, if_false]
    exact merge_nodup new s.proxies (s.proxies.map proxyKey) t rfl h

theorem reachable_keys_nodup (s : PMState) (h : Reachable s) :
    (s.proxies.map proxyKey).Nodup := by
  induction h with
  | refl => simp [initState]
  | tail hab hbc ih =>
    cases hbc with
    | refresh new t => exact refresh_keys_nodup _ new t ih
    | report pr b rt t => rw [report_map_key]; exact ih
    | health out t => rw [health_map_key]; exact ih
    | select u c m pick r t => rw [select_map_key]; exact ih

/- ### The derived active view (claims C2 and C9) -/

theorem derived_modify_fc (l : List Descriptor) (i : Nat) (v : Option Nat) :
    derivedActiveIdx (listModify l i (fun p => { p with failure_count := v }))
      = derivedActiveIdx l :=
  derivedActiveIdx_listModify _ _ _ (fun _ => rfl)

theorem derived_modify_lu (l : List Descriptor) (i tv : Nat) :
    derivedActiveIdx (listModify l i (fun p => { p with last_used := some tv }))
      = derivedActiveIdx l :=
  derivedActiveIdx_listModify _ _ _ (fun _ => rfl)

theorem refresh_active (s : PMState) (new : List Descriptor) (t : Nat)
    (hA : s.activeIdx = derivedActiveIdx s.proxies) :
    (refresh_proxies s new t).activeIdx = derivedActiveIdx (refresh_proxies s new t).proxies := by
  by_cases hN : new = []
  · simpa [refresh_proxies, hN] using hA
  · simp [refresh_proxies, hN]

theorem report_active (s : PMState) (pr : Option Descriptor) (b : Bool)
    (rt : Option Nat) (t : Nat) (hA : s.activeIdx = derivedActiveIdx s.proxies) :
    (report_proxy_result s pr b rt t).activeIdx
      = derivedActiveIdx (report_proxy_result s pr b rt t).proxies := by
  cases pr with
  | none => exact hA
  | some p =>
    cases b with
    | true =>
      cases hf : findPairIdx s.proxies p.host p.port with
      | none => simpa [report_proxy_result, hf] using hA
      | some i =>
        simp only [report_proxy_result, hf]
        exact hA.trans (derived_modify_fc s.proxies i (some 0)).symm
    | false =>
      cases hf : findPairIdx s.proxies p.host p.port with
      | none => simpa [report_proxy_result, hf] using hA
      | some i =>
        by_cases h3 : 3 ≤ (dget s.proxies i).failure_count.getD 0 + 1
        · simp [report_proxy_result, hf, h3]
        · simp only [report_proxy_result, hf, if_neg h3]
          exact hA.trans
            (derived_modify_fc s.proxies i (some ((dget s.proxies i).failure_count.getD 0 + 1))).symm

theorem health_active (s : PMState) (out : Nat → HOutcome) (t : Nat) :
    (check_proxy_health s out t).activeIdx
      = derivedActiveIdx (check_proxy_health s out t).proxies := rfl

theorem select_active (u : Bool) (s : PMState) (c : Option String) (m : Option Nat)
    (pick r t : Nat) (hA : s.activeIdx = derivedActiveIdx s.proxies) :
    (select_step u s c m pick r t).activeIdx
      = derivedActiveIdx (select_step u s c m pick r t).proxies := by
  cases hgi : get_proxy_idx u s c m pick r with
  | none => simpa [select_step, get_proxy, hgi] using hA
  | some i =>
    simp only [select_step, get_proxy, hgi]
    exact hA.trans (derived_modify_lu s.proxies i t).symm

theorem reachable_active (s : PMState) (h : Reachable s) :
    s.activeIdx = derivedActiveIdx s.proxies := by
  induction h with
  | refl => rfl
  | tail hab hbc ih =>
    cases hbc with
    | refresh new t => exact refresh_active _ new t ih
    | report pr b rt t => exact report_active _ pr b rt t ih
    | health out t => exact health_active _ out t
    | select u c m pick r t => exact select_active u _ c m pick r t ih

/- ### The three-strike forward invariant (claim C1) -/

theorem tsfList_modify_safe (ps : List Descriptor) (bl : List Nat) (i : Nat)
    (f : Descriptor → Descriptor)
    (hf : ∀ p, ((f p).failure_count = p.failure_count ∧ (f p).is_active = p.is_active)
            ∨ (f p).failure_count.getD 0 < 3)
    (h : tsfList ps bl) : tsfList (listModify ps i f) bl := by
  intro j hj h3
  rw [List.mem_range, length_listModify] at hj
  rcases eq_or_ne j i with rfl | hne
  · rw [dget_listModify_self ps j f hj] at h3 ⊢
    rcases hf (dget ps j) with ⟨hfc, hia⟩ | hlt
    · rw [hfc] at h3
      rw [hia]
      exact h j (List.mem_range.mpr hj) h3
    · omega
  · rw [dget_listModify_ne ps i j f hne] at h3 ⊢
    exact h j (List.mem_range.mpr hj) h3

theorem tsfList_strike (ps : List Descriptor) (bl : List Nat) (i n : Nat)
    (h : tsfList ps bl) :
    tsfList (listModify ps i (fun p => { p with failure_count := some n, is_active := some false }))
      (bl ++ [i]) := by
  intro j hj h3
  rw [List.mem_range, length_listModify] at hj
  rcases eq_or_ne j i with rfl | hne
  · rw [dget_listModify_self ps j _ hj]
    exact ⟨rfl, by simp⟩
  · rw [dget_listModify_ne ps i j _ hne] at h3 ⊢
    obtain ⟨h1, h2⟩ := h j (List.mem_range.mpr hj) h3
    exact ⟨h1, List.mem_append_left _ h2⟩

theorem tsf_report (s : PMState) (pr : Option Descriptor) (b : Bool)
    (rt : Option Nat) (t : Nat) (h : threeStrikeFwd s) :
    threeStrikeFwd (report_proxy_result s pr b rt t) := by
  cases pr with
  | none => exact h
  | some p =>
    cases b with
    | true =>
      cases hf : findPairIdx s.proxies p.host p.port with
      | none => simpa [threeStrikeFwd, report_proxy_result, hf] using h
      | some i =>
        simp only [threeStrikeFwd, report_proxy_result, hf]
        exact tsfList_modify_safe _ _ _ _ (fun q => Or.inr (by simp)) h
    | false =>
      cases hf : findPairIdx s.proxies p.host p.port with
      | none => simpa [threeStrikeFwd, report_proxy_result, hf] using h
      | some i =>
        by_cases h3 : 3 ≤ (dget s.proxies i).failure_count.getD 0 + 1
        · simp only [threeStrikeFwd, report_proxy_result, hf, if_pos h3]
          exact tsfList_strike _ _ _ _ h
        · simp only [threeStrikeFwd, report_proxy_result, hf, if_neg h3]
          exact tsfList_modify_safe _ _ _ _ (fun q => Or.inr (by simp; omega)) h

theorem tsf_hss (s : PMState) (i rt t : Nat) (h : threeStrikeFwd s) :
    threeStrikeFwd (health_single_success s i rt t) := by
  simp only [threeStrikeFwd, health_single_success]
  exact tsfList_modify_safe _ _ _ _ (fun q => Or.inl ⟨rfl, rfl⟩) h

theorem tsf_hp (st : PMState) (i : Nat) (ok : Bool) (h : threeStrikeFwd st) :
    threeStrikeFwd (health_process st i ok) := by
  cases ok with
  | true =>
    simp only [threeStrikeFwd, health_process, if_true]
    exact tsfList_modify_safe _ _ _ _ (fun q => Or.inr (by simp)) h
  | false =>
    by_cases h3 : 3 ≤ (dget st.proxies i).failure_count.getD 0 + 1
    · simp only [threeStrikeFwd, health_process, Bool.false_eq_true, if_false, if_pos h3]
      exact tsfList_strike _ _ _ _ h
    · simp only [threeStrikeFwd, health_process, Bool.false_eq_true, if_false, if_neg h3]
      exact tsfList_modify_safe _ _ _ _ (fun q => Or.inr (by simp; omega)) h

theorem tsf_health (s : PMState) (out : Nat → HOutcome) (t : Nat) (h : threeStrikeFwd s) :
    threeStrikeFwd (check_proxy_health s out t) := by
  unfold check_proxy_health
  have h1 : threeStrikeFwd (s.activeIdx.foldl (fun st i => match out i with
      | HOutcome.good rt => health_single_success st i rt t
      | _ => st) s) := by
    refine foldl_preserve _ ?_ s.activeIdx s h
    intro st i hst
    cases out i with
    | err => exact hst
    | bad => exact hst
    | good rt => exact tsf_hss st i rt t hst
  refine foldl_preserve _ ?_ s.activeIdx _ h1
  intro st i hst
  cases out i with
  | err => exact hst
  | bad => exact tsf_hp st i false hst
  | good rt => exact tsf_hp st i true hst

theorem tsf_reachRH (s0 s : PMState) (h0 : threeStrikeFwd s0) (h : ReachRH s0 s) :
    threeStrikeFwd s := by
  induction h with
  | refl => exact h0
  | tail hab hbc ih =>
    cases hbc with
    | report pr b rt t => exact tsf_report _ pr b rt t ih
    | health out t => exact tsf_health _ out t ih

/- ### Performance record invariants (claim C7) -/

theorem setPerf_all {B : PerfRecord → Prop} (m : List (String × PerfRecord)) (k : String)
    (v : PerfRecord) (hv : B v) (h : ∀ kr ∈ m, B kr.2) :
    ∀ kr ∈ setPerf m k v, B kr.2 := by
  intro kr hkr
  rcases mem_setPerf m k v kr hkr with rfl | hmem
  · exact hv
  · exact h kr hmem

theorem lookup_getD {B : PerfRecord → Prop} (m : List (String × PerfRecord)) (k : String)
    (hd : B defaultPerf) (h : ∀ kr ∈ m, B kr.2) :
    B ((lookupPerf m k).getD defaultPerf) := by
  cases hl : lookupPerf m k with
  | none => simpa using hd
  | some v =>
    have := h (k, v) (lookupPerf_mem m k v hl)
    simpa using this

theorem refresh_performance (s : PMState) (new : List Descriptor) (t : Nat) :
    (refresh_proxies s new t).performance = s.performance := by
  by_cases hN : new = []
  · simp [refresh_proxies, hN]
  · simp [refresh_proxies, hN]

theorem select_performance (u : Bool) (s : PMState) (c : Option String) (m : Option Nat)
    (pick r t : Nat) : (select_step u s c m pick r t).performance = s.performance := by
  cases hgi : get_proxy_idx u s c m pick r with
  | none => simp [select_step, get_proxy, hgi]
  | some i => simp [select_step, get_proxy, hgi]

theorem bound_report (s : PMState) (pr : Option Descriptor) (b : Bool)
    (rt : Option Nat) (t : Nat) (h : perfBoundOK s) :
    perfBoundOK (report_proxy_result s pr b rt t) := by
  cases pr with
  | none => exact h
  | some p =>
    have h0 : perfB ((lookupPerf s.performance (proxyKey p)).getD defaultPerf) :=
      lookup_getD (B := perfB) s.performance (proxyKey p) (Nat.le_refl 0) h
    have hsucc1 := Nat.succ_le_succ h0
    have hsucc2 := Nat.le_succ_of_le h0
    cases b with
    | true =>
      cases hrt : rt with
      | none =>
        cases hf : findPairIdx s.proxies p.host p.port with
        | none =>
          simp only [report_proxy_result, hf]
          exact setPerf_all (B := perfB) _ _ _ hsucc1 h
        | some i =>
          simp only [report_proxy_result, hf]
          exact setPerf_all (B := perfB) _ _ _ hsucc1 h
      | some v =>
        by_cases hv : v = 0
        · cases hf : findPairIdx s.proxies p.host p.port with
          | none =>
            simp only [report_proxy_result, hf, hv, if_pos rfl]
            exact setPerf_all (B := perfB) _ _ _ hsucc1 h
          | some i =>
            simp only [report_proxy_result, hf, hv, if_pos rfl]
            exact setPerf_all (B := perfB) _ _ _ hsucc1 h
        · cases hf : findPairIdx s.proxies p.host p.port with
          | none =>
            simp only [report_proxy_result, hf, if_neg hv]
            exact setPerf_all (B := perfB) _ _ _ hsucc1 h
          | some i =>
            simp only [report_proxy_result, hf, if_neg hv]
            exact setPerf_all (B := perfB) _ _ _ hsucc1 h
    | false =>
      cases hf : findPairIdx s.proxies p.host p.port with
      | none =>
        simp only [report_proxy_result, hf]
        exact setPerf_all (B := perfB) _ _ _ hsucc2 h
      | some i =>
        by_cases h3 : 3 ≤ (dget s.proxies i).failure_count.getD 0 + 1
        · simp only [report_proxy_result, hf, if_pos h3]
          exact setPerf_all (B := perfB) _ _ _ hsucc2 h
        · simp only [report_proxy_result, hf, if_neg h3]
          exact setPerf_all (B := perfB) _ _ _ hsucc2 h

theorem bound_hss (s : PMState) (i rt t : Nat) (h : perfBoundOK s) :
    perfBoundOK (health_single_success s i rt t) := by
  have h0 : perfB ((lookupPerf s.performance (proxyKey (dget s.proxies i))).getD defaultPerf) :=
    lookup_getD (B := perfB) s.performance _ (Nat.le_refl 0) h
  simp only [health_single_success]
  exact setPerf_all (B := perfB) _ _ _ (Nat.succ_le_succ h0) h

theorem bound_hp (st : PMState) (i : Nat) (ok : Bool) (h : perfBoundOK st) :
    perfBoundOK (health_process st i ok) := by
  cases ok with
  | true => exact h
  | false =>
    by_cases h3 : 3 ≤ (dget st.proxies i).failure_count.getD 0 + 1
    · simpa only [perfBoundOK, health_process, Bool.false_eq_true, if_false, if_pos h3] using h
    · simpa only [perfBoundOK, health_process, Bool.false_eq_true, if_false, if_neg h3] using h

theorem bound_health (s : PMState) (out : Nat → HOutcome) (t : Nat) (h : perfBoundOK s) :
    perfBoundOK (check_proxy_health s out t) := by
  unfold check_proxy_health
  have h1 : perfBoundOK (s.activeIdx.foldl (fun st i => match out i with
      | HOutcome.good rt => health_single_success st i rt t
      | _ => st) s) := by
    refine foldl_preserve _ ?_ s.activeIdx s h
    intro st i hst
    cases out i with
    | err => exact hst
    | bad => exact hst
    | good rt => exact bound_hss st i rt t hst
  refine foldl_preserve _ ?_ s.activeIdx _ h1
  intro st i hst
  cases out i with
  | err => exact hst
  | bad => exact bound_hp st i false hst
  | good rt => exact bound_hp st i true hst

theorem reachable_perfBound (s : PMState) (h : Reachable s) : perfBoundOK s := by
  induction h with
  | refl => intro kr hkr; simp [initState] at hkr
  | tail hab hbc ih =>
    cases hbc with
    | refresh new t =>
      intro kr hkr
      rw [refresh_performance] at hkr
      exact ih kr hkr
    | report pr b rt t => exact bound_report _ pr b rt t ih
    | health out t => exact bound_health _ out t ih
    | select u c m pick r t =>
      intro kr hkr
      rw [select_performance] at hkr
      exact ih kr hkr

theorem perfA_default : perfA defaultPerf := by
  simp [perfA, defaultPerf]

theorem avg_report (s : PMState) (pr : Option Descriptor) (b : Bool)
    (rt : Option Nat) (t : Nat) (ht : b = true → ∃ v, rt = some v ∧ 0 < v)
    (h : perfAvgOK s) : perfAvgOK (report_proxy_result s pr b rt t) := by
  cases pr with
  | none => exact h
  | some p =>
    have h0 : perfA ((lookupPerf s.performance (proxyKey p)).getD defaultPerf) :=
      lookup_getD (B := perfA) s.performance (proxyKey p) perfA_default h
    cases b with
    | true =>
      obtain ⟨v, hrt, hv⟩ := ht rfl
      have hv0 : ¬ v = 0 := Nat.pos_iff_ne_zero.mp hv
      have hnew : perfA
          { total_requests := ((lookupPerf s.performance (proxyKey p)).getD defaultPerf).total_requests + 1,
            successful_requests := ((lookupPerf s.performance (proxyKey p)).getD defaultPerf).successful_requests + 1,
            total_response_time := ((lookupPerf s.performance (proxyKey p)).getD defaultPerf).total_response_time + v,
            avg_response_time := (((lookupPerf s.performance (proxyKey p)).getD defaultPerf).total_response_time + v)
              / (((lookupPerf s.performance (proxyKey p)).getD defaultPerf).successful_requests + 1),
            last_success := some t } := by
        simp [perfA]
      cases hf : findPairIdx s.proxies p.host p.port with
      | none =>
        simp only [report_proxy_result, hf, hrt, if_neg hv0]
        exact setPerf_all (B := perfA) _ _ _ hnew h
      | some i =>
        simp only [report_proxy_result, hf, hrt, if_neg hv0]
        exact setPerf_all (B := perfA) _ _ _ hnew h
    | false =>
      cases hf : findPairIdx s.proxies p.host p.port with
      | none =>
        simp only [report_proxy_result, hf]
        exact setPerf_all (B := perfA) _ _ _ h0 h
      | some i =>
        by_cases h3 : 3 ≤ (dget s.proxies i).failure_count.getD 0 + 1
        · simp only [report_proxy_result, hf, if_pos h3]
          exact setPerf_all (B := perfA) _ _ _ h0 h
        · simp only [report_proxy_result, hf, if_neg h3]
          exact setPerf_all (B := perfA) _ _ _ h0 h

theorem avg_hss (s : PMState) (i rt t : Nat) (h : perfAvgOK s) :
    perfAvgOK (health_single_success s i rt t) := by
  have hnew : perfA
      { total_requests := ((lookupPerf s.performance (proxyKey (dget s.proxies i))).getD defaultPerf).total_requests + 1,
        successful_requests := ((lookupPerf s.performance (proxyKey (dget s.proxies i))).getD defaultPerf).successful_requests + 1,
        total_response_time := ((lookupPerf s.performance (proxyKey (dget s.proxies i))).getD defaultPerf).total_response_time + rt,
        avg_response_time := (((lookupPerf s.performance (proxyKey (dget s.proxies i))).getD defaultPerf).total_response_time + rt)
          / (((lookupPerf s.performance (proxyKey (dget s.proxies i))).getD defaultPerf).successful_requests + 1),
        last_success := some t } := by
    simp [perfA]
  simp only [health_single_success]
  exact setPerf_all (B := perfA) _ _ _ hnew h

theorem avg_hp (st : PMState) (i : Nat) (ok : Bool) (h : perfAvgOK st) :
    perfAvgOK (health_process st i ok) := by
  cases ok with
  | true => exact h
  | false =>
    by_cases h3 : 3 ≤ (dget st.proxies i).failure_count.getD 0 + 1
    · simpa only [perfAvgOK, health_process, Bool.false_eq_true, if_false, if_pos h3] using h
    · simpa only [perfAvgOK, health_process, Bool.false_eq_true, if_false, if_neg h3] using h

theorem avg_health (s : PMState) (out : Nat → HOutcome) (t : Nat) (h : perfAvgOK s) :
    perfAvgOK (check_proxy_health s out t) := by
  unfold check_proxy_health
  have h1 : perfAvgOK (s.activeIdx.foldl (fun st i => match out i with
      | HOutcome.good rt => health_single_success st i rt t
      | _ => st) s) := by
    refine foldl_preserve _ ?_ s.activeIdx s h
    intro st i hst
    cases out i with
    | err => exact hst
    | bad => exact hst
    | good rt => exact avg_hss st i rt t hst
  refine foldl_preserve _ ?_ s.activeIdx _ h1
  intro st i hst
  cases out i with
  | err => exact hst
  | bad => exact avg_hp st i false hst
  | good rt => exact avg_hp st i true hst

theorem reachableT_perfAvg (s : PMState) (h : ReachableT s) : perfAvgOK s := by
  induction h with
  | refl => intro kr hkr; simp [initState] at hkr
  | tail hab hbc ih =>
    cases hbc with
    | refresh new t =>
      intro kr hkr
      rw [refresh_performance] at hkr
      exact ih kr hkr
    | report pr b rt t ht => exact avg_report _ pr b rt t ht ih
    | health out t => exact avg_health _ out t ih
    | select u c m pick r t =>
      intro kr hkr
      rw [select_performance] at hkr
      exact ih kr hkr

/- ### Selector soundness machinery (claim C2) -/

theorem getD_mod_mem (l : List Nat) (n : Nat) (h : l ≠ []) :
    l.getD (n % l.length) 0 ∈ l := by
  have hlen : 0 < l.length := List.length_pos.mpr h
  have hm : n % l.length < l.length := Nat.mod_lt _ hlen
  rw [List.getD_eq_getElem l 0 hm]
  exact List.getElem_mem hm

theorem countryFilter_sub (s : PMState) (c : Option String) (i : Nat)
    (hi : i ∈ countryFilter s c) : i ∈ s.activeIdx := by
  cases c with
  | none => exact hi
  | some cc =>
    by_cases hcc : cc = ("")
    · simpa only [countryFilter, if_pos hcc] using hi
    · simp only [countryFilter, if_neg hcc] at hi
      exact (List.mem_filter.mp hi).1

theorem rtFilter_sub (s : PMState) (f1 : List Nat) (m : Option Nat) (i : Nat)
    (hi : i ∈ rtFilter s f1 m) : i ∈ f1 := by
  cases m with
  | none => exact hi
  | some mv =>
    by_cases hc : mv = 0 ∨ f1 = []
    · simpa only [rtFilter, if_pos hc] using hi
    · simp only [rtFilter, if_neg hc] at hi
      exact (List.mem_filter.mp hi).1

theorem filtered_sub (s : PMState) (c : Option String) (m : Option Nat) (i : Nat)
    (hi : i ∈ filteredCandidates s c m) : i ∈ s.activeIdx :=
  countryFilter_sub s c i (rtFilter_sub s _ m i hi)

theorem filtered_country (s : PMState) (cc : String) (m : Option Nat) (i : Nat)
    (hi : i ∈ filteredCandidates s (some cc) m) (hne : cc ≠ ("")) :
    (dget s.proxies i).country = some cc := by
  have h1 : i ∈ countryFilter s (some cc) := rtFilter_sub s _ m i hi
  simp only [countryFilter, if_neg hne] at h1
  exact of_decide_eq_true (List.mem_filter.mp h1).2

theorem filtered_rt (s : PMState) (c : Option String) (mv : Nat) (i : Nat)
    (hi : i ∈ filteredCandidates s c (some mv)) (hne : mv ≠ 0) :
    (dget s.proxies i).avg_response_time.getD 999999 ≤ mv := by
  unfold filteredCandidates at hi
  by_cases he : countryFilter s c = []
  · rw [rtFilter, if_pos (Or.inr he), he] at hi
    simp at hi
  · rw [rtFilter, if_neg (by simp [hne, he])] at hi
    exact of_decide_eq_true (List.mem_filter.mp hi).2

theorem get_proxy_idx_mem (u : Bool) (s : PMState) (c : Option String) (m : Option Nat)
    (pick r i : Nat) (h : get_proxy_idx u s c m pick r = some i) :
    i ∈ filteredCandidates s c m := by
  unfold get_proxy_idx at h
  by_cases hg : u = false ∨ s.activeIdx = []
  · rw [if_pos hg] at h; exact absurd h (by simp)
  · rw [if_neg hg] at h
    by_cases he : filteredCandidates s c m = []
    · rw [if_pos he] at h; exact absurd h (by simp)
    · rw [if_neg he] at h
      by_cases hlen : (filteredCandidates s c m).length ≤ 3
      · rw [if_pos hlen] at h
        have hmem := getD_mod_mem (filteredCandidates s c m) pick he
        rwa [Option.some_inj.mp h] at hmem
      · rw [if_neg hlen] at h
        by_cases htot : ((filteredCandidates s c m).map
            (fun j => selectionWeight (dget s.proxies j))).sum = 0
        · rw [if_pos htot] at h
          have hmem := getD_mod_mem (filteredCandidates s c m) pick he
          rwa [Option.some_inj.mp h] at hmem
        · rw [if_neg htot] at h
          have hmem := walk_mem s.proxies r (filteredCandidates s c m) 0 0 he
          rwa [Option.some_inj.mp h] at hmem

/- ### Frame property of reporting an unknown descriptor (claim C10) -/

theorem report_notfound_frame (s : PMState) (p : Descriptor) (b : Bool)
    (rt : Option Nat) (t : Nat)
    (h : ∀ q ∈ s.proxies, ¬(q.host = p.host ∧ q.port = p.port)) :
    (report_proxy_result s (some p) b rt t).proxies = s.proxies ∧
    (report_proxy_result s (some p) b rt t).activeIdx = s.activeIdx ∧
    (report_proxy_result s (some p) b rt t).blackIdx = s.blackIdx ∧
    (report_proxy_result s (some p) b rt t).last_refresh = s.last_refresh ∧
    (∀ k2, k2 ≠ proxyKey p →
      lookupPerf (report_proxy_result s (some p) b rt t).performance k2
        = lookupPerf s.performance k2) ∧
    (∃ rec, lookupPerf (report_proxy_result s (some p) b rt t).performance (proxyKey p)
        = some rec) := by
  have hf : findPairIdx s.proxies p.host p.port = none :=
    findPairIdx_of_not_found s.proxies p.host p.port h
  cases b with
  | true =>
    simp only [report_proxy_result, hf]
    exact ⟨rfl, rfl, rfl, rfl,
      fun k2 hk2 => lookupPerf_setPerf_ne _ _ _ _ hk2,
      _, lookupPerf_setPerf_self _ _ _⟩
  | false =>
    simp only [report_proxy_result, hf]
    exact ⟨rfl, rfl, rfl, rfl,
      fun k2 hk2 => lookupPerf_setPerf_ne _ _ _ _ hk2,
      _, lookupPerf_setPerf_self _ _ _⟩

theorem report_notfound_iter (p : Descriptor) (t : Nat) :
    ∀ (n : Nat) (s : PMState), (∀ q ∈ s.proxies, ¬(q.host = p.host ∧ q.port = p.port)) →
      (Nat.iterate (fun st => report_proxy_result st (some p) false none t) n s).blackIdx
        = s.blackIdx ∧
      (Nat.iterate (fun st => report_proxy_result st (some p) false none t) n s).proxies
        = s.proxies := by
  intro n
  induction n with
  | zero => intro s _; exact ⟨rfl, rfl⟩
  | succ k ih =>
    intro s hs
    rw [Function.iterate_succ_apply]
    obtain ⟨hp, ha, hb, hl, _, _⟩ :=
      report_notfound_frame s p false none t hs
    have hs2 : ∀ q ∈ (report_proxy_result s (some p) false none t).proxies,
        ¬(q.host = p.host ∧ q.port = p.port) := by
      rw [hp]; exact hs
    obtain ⟨ihb, ihp⟩ := ih (report_proxy_result s (some p) false none t) hs2
    exact ⟨ihb.trans hb, ihp.trans hp⟩

/- ### Claim theorems -/

/-- Claim C1 (amended: forward direction only).  For every state reached
from an initial pool satisfying the three-strike property by any
sequence of `report_proxy_result` calls and health-check outcomes, a
descriptor with `failure_count ≥ 3` has `is_active = false` and appears
in the blacklist.  The converse direction of the claimed equivalence is
false: a success report resets `failure_count` to 0 on a descriptor
that stays inactive and blacklisted (see the counterexample). -/
theorem three_strike_forward (s0 s : PMState) (h0 : threeStrikeFwd s0)
    (h : ReachRH s0 s) : threeStrikeFwd s :=
  tsf_reachRH s0 s h0 h

theorem three_strike_forward_witness :
    threeStrikeFwd (report_proxy_result refreshedPool (some dH) false none 1) :=
  three_strike_forward refreshedPool _ (by decide)
    (Relation.ReflTransGen.single (StepRH.report refreshedPool (some dH) false none 1))

/-- Counterexample to claim C1 as stated: from the freshly refreshed
pool, three failure reports followed by one success report yield a
reachable state whose only descriptor is inactive and blacklisted yet
has `failure_count = 0`, refuting the right-to-left direction of the
claimed equivalence. -/
theorem three_strike_iff_cx :
    threeStrikeFwd refreshedPool ∧
    ReachRH refreshedPool c1state ∧
    (dget c1state.proxies 0).is_active = some false ∧
    (0 : Nat) ∈ c1state.blackIdx ∧
    dget c1state.proxies 0 ∈ blacklisted_view c1state ∧
    (dget c1state.proxies 0).failure_count.getD 0 = 0 := by
  refine ⟨by decide, ?_, by decide, by decide, by decide, by decide⟩
  exact Relation.ReflTransGen.tail (Relation.ReflTransGen.tail (Relation.ReflTransGen.tail
    (Relation.ReflTransGen.single (StepRH.report refreshedPool (some dH) false none 1))
    (StepRH.report _ (some dH) false none 2))
    (StepRH.report _ (some dH) false none 3))
    (StepRH.report _ (some dH) true none 4)

/-- Claim C2 (amended).  Any descriptor returned by `get_proxy` on a
state whose `active_proxies` view is the derived one is active (under
the absent-means-active reading), matches the country filter whenever a
non-empty country is given, and satisfies the latency bound (through
the 999999 sentinel for unmeasured proxies) whenever a positive bound
is given.  As stated the claim is false for the given-but-zero bound
`max_response_time = 0`, which Python truthiness skips (see the
counterexample). -/
theorem get_proxy_sound (u : Bool) (s : PMState) (c : Option String) (m : Option Nat)
    (pick r t : Nat) (d : Descriptor) (s2 : PMState)
    (hA : s.activeIdx = derivedActiveIdx s.proxies)
    (h : get_proxy u s c m pick r t = some (d, s2)) :
    isActiveD d = true ∧
    (∀ cc, c = some cc → cc ≠ ("") → d.country = some cc) ∧
    (∀ mv, m = some mv → mv ≠ 0 → d.avg_response_time.getD 999999 ≤ mv) := by
  cases hgi : get_proxy_idx u s c m pick r with
  | none => simp [get_proxy, hgi] at h
  | some i =>
    simp only [get_proxy, hgi, Option.some_inj, Prod.mk.injEq] at h
    obtain ⟨hd, _⟩ := h
    have hmem := get_proxy_idx_mem u s c m pick r i hgi
    have hact : i ∈ s.activeIdx := filtered_sub s c m i hmem
    rw [hA] at hact
    obtain ⟨hlt, hia⟩ := (mem_derivedActiveIdx s.proxies i).mp hact
    have hdd : d = { dget s.proxies i with last_used := some t } := by
      rw [← hd, dget_listModify_self s.proxies i _ hlt]
    refine ⟨?_, ?_, ?_⟩
    · rw [hdd]; exact hia
    · intro cc hcc hne
      rw [hdd]
      exact filtered_country s cc m i (hcc ▸ hmem) hne
    · intro mv hmv hne
      rw [hdd]
      exact filtered_rt s c mv i (hmv ▸ hmem) hne

theorem get_proxy_sound_witness :
    isActiveD { dUS with last_used := some 5 } = true ∧
    (∀ cc, (some ("us") : Option String) = some cc → cc ≠ ("") →
      ({ dUS with last_used := some 5 } : Descriptor).country = some cc) ∧
    (∀ mv, (some 200 : Option Nat) = some mv → mv ≠ 0 →
      ({ dUS with last_used := some 5 } : Descriptor).avg_response_time.getD 999999 ≤ mv) :=
  get_proxy_sound true sCW (some ("us")) (some 200) 0 0 5
    { dUS with last_used := some 5 }
    { sCW with proxies := [{ dUS with last_used := some 5 }] }
    (by decide) (by decide)

/-- Counterexample to claim C2 as stated: with the bound
`max_response_time = 0` given, `get_proxy` skips the latency filter (the
Python truthiness test `if max_response_time` fails on `0`) and returns
a descriptor whose recorded average of 500 ms violates the bound. -/
theorem get_proxy_filter_cx :
    get_proxy true sC2 none (some 0) 0 0 9
      = some ({ dp500 with last_used := some 9 },
              { sC2 with proxies := [{ dp500 with last_used := some 9 }] }) ∧
    ¬(({ dp500 with last_used := some 9 } : Descriptor).avg_response_time.getD 999999 ≤ 0) := by
  decide

/-- Claim C3 (amended).  `_generate_zone_proxies` with user `u`, zone
`z1`, password `p` does synthesise exactly 18 country descriptors (one
per listed country, username `u-zone-z1-country-{cc}`) plus 5 rotating
descriptors (username `u-zone-z1`), all on the published superproxy
endpoint — but `refresh_proxies` on an empty pool then inserts exactly
ONE descriptor (the first, country `us`), because its merge
deduplicates by `host:port` and all 23 synthesised descriptors share
the same endpoint. -/
theorem zone_synthesis_amended :
    (generate_zone_proxies ("u") ("z1") ("p")).length = 23 ∧
    ((generate_zone_proxies ("u") ("z1") ("p")).all
      (fun d => decide (d.host = ("zproxy.lum-superproxy.io")) && decide (d.port = 22225))) = true ∧
    ((generate_zone_proxies ("u") ("z1") ("p")).take 18).map (fun d => d.country)
      = luminatiCountries.map some ∧
    ((generate_zone_proxies ("u") ("z1") ("p")).take 18).map (fun d => d.username)
      = luminatiCountries.map (fun cc => some (("u-zone-z1-country-") ++ cc)) ∧
    ((generate_zone_proxies ("u") ("z1") ("p")).drop 18).map (fun d => d.username)
      = List.replicate 5 (some ("u-zone-z1")) ∧
    ((generate_zone_proxies ("u") ("z1") ("p")).drop 18).map (fun d => d.country)
      = List.replicate 5 (some ("any")) ∧
    (refresh_proxies initState (generate_zone_proxies ("u") ("z1") ("p")) 0).proxies.map
      (fun d => d.country) = [some ("us")] ∧
    (refresh_proxies initState (generate_zone_proxies ("u") ("z1") ("p")) 0).proxies.map
      (fun d => d.username) = [some ("u-zone-z1-country-us")] := by
  decide

/-- Counterexample to claim C3 as stated: `refresh()` on an empty pool
with the 23 synthesised zone descriptors populates 1 descriptor, not
23. -/
theorem zone_refresh_cx :
    ¬((refresh_proxies initState (generate_zone_proxies ("u") ("z1") ("p")) 0).proxies.length
        = 23) := by
  decide

/-- Claim C4 (amended).  The weight `get_proxy` computes in its
more-than-3-candidates branch is `1000 // avg_rt` (with the `else 1000`
branch only for a recorded average of 0) where the *default for a
missing average is 500 ms, not 1 ms*: a candidate with no recorded
average response time gets weight `1000 // 500 = 2`, not 1000. -/
theorem selection_weight_amended (p : Descriptor) (rt : Nat) :
    (p.avg_response_time = some rt → selectionWeight p = specWeight p) ∧
    (p.avg_response_time = none → selectionWeight p = 2) := by
  constructor
  · intro h
    simp [selectionWeight, specWeight, h]
  · intro h
    simp [selectionWeight, specWeight, h]

theorem selection_weight_amended_witness :
    selectionWeight dRt250 = specWeight dRt250 ∧ selectionWeight dNoRt = 2 :=
  ⟨(selection_weight_amended dRt250 250).1 rfl, (selection_weight_amended dNoRt 0).2 rfl⟩

/-- Counterexample to claim C4 as stated: a candidate with no recorded
average response time is weighted `1000 // 500 = 2` (the code defaults
the missing value to 500), not 1000 as the claim's 1 ms reading
asserts. -/
theorem selection_weight_cx :
    selectionWeight dNoRt = 2 ∧ specWeight dNoRt = 1000 ∧ ¬(selectionWeight dNoRt = 1000) := by
  decide

/-- Claim C5 (amended).  Loading the snapshot written by
`_save_proxies` restores `proxies`, `performance` and `blacklisted`
exactly and recomputes the active view, but the reloaded
`last_refresh` equals the wall-clock time of the save call (which
`_save_proxies` stamps with `datetime.now()`), not the stored
`last_refresh` value. -/
theorem snapshot_round_trip (s : PMState) (t : Nat) :
    (load_saved_proxies (save_proxies s t)).proxies = s.proxies ∧
    (load_saved_proxies (save_proxies s t)).performance = s.performance ∧
    (load_saved_proxies (save_proxies s t)).blacklisted = blacklisted_view s ∧
    (load_saved_proxies (save_proxies s t)).activeIdx = derivedActiveIdx s.proxies ∧
    (load_saved_proxies (save_proxies s t)).last_refresh = some t :=
  ⟨rfl, rfl, rfl, rfl, rfl⟩

/-- Counterexample to claim C5 as stated: the pool refreshed at time 0
is reachable and stores `last_refresh = 0`, but saving it at time 7 and
loading yields `last_refresh = 7` — the prior value is not reloaded. -/
theorem snapshot_round_trip_cx :
    Reachable refreshedPool ∧
    refreshedPool.last_refresh = some 0 ∧
    (load_saved_proxies (save_proxies refreshedPool 7)).last_refresh = some 7 ∧
    ¬((load_saved_proxies (save_proxies refreshedPool 7)).last_refresh
        = refreshedPool.last_refresh) := by
  refine ⟨Relation.ReflTransGen.single (Step.refresh initState [dH] 0),
    by decide, by decide, by decide⟩

/-- Claim C6 (amended).  In every state reachable from the initial empty
pool by any interleaving of refresh, report, health-check and select
operations, each `(host, port)` pair appears at most once in the
`proxies` list (and hence each `host:port` key is unique there).  The
claimed uniqueness across the *union* of `proxies` and `blacklisted` is
false: blacklisting appends the descriptor to `blacklisted_proxies`
while leaving it in `proxies` (see the counterexample). -/
theorem host_port_unique (s : PMState) (h : Reachable s) :
    (s.proxies.map proxyKey).Nodup ∧
    (s.proxies.map (fun p => (p.host, p.port))).Nodup := by
  have hk := reachable_keys_nodup s h
  refine ⟨hk, ?_⟩
  have hcomp : (s.proxies.map (fun p => (p.host, p.port))).map
      (fun q => q.1 ++ (":") ++ toString q.2) = s.proxies.map proxyKey := by
    rw [List.map_map]
    rfl
  exact List.Nodup.of_map _ (hcomp.symm ▸ hk)

theorem host_port_unique_witness :
    ((refreshedPool.proxies.map proxyKey).Nodup ∧
      (refreshedPool.proxies.map (fun p => (p.host, p.port))).Nodup) :=
  host_port_unique refreshedPool
    (Relation.ReflTransGen.single (Step.refresh initState [dH] 0))

/-- Counterexample to claim C6 as stated: after a refresh and three
failure reports, the reachable state `c6state` holds the pair
`("h", 1)` both in `proxies` and in the blacklist view — it occurs
twice across the union, not at most once. -/
theorem host_port_unique_cx :
    Reachable c6state ∧
    ((c6state.proxies ++ blacklisted_view c6state).filter
        (fun p => decide (p.host = ("h") ∧ p.port = 1))).length = 2 := by
  refine ⟨?_, by decide⟩
  exact Relation.ReflTransGen.tail (Relation.ReflTransGen.tail (Relation.ReflTransGen.tail
    (Relation.ReflTransGen.single (Step.refresh initState [dH] 0))
    (Step.report _ (some dH) false none 1))
    (Step.report _ (some dH) false none 2))
    (Step.report _ (some dH) false none 3)

/-- Claim C7 (amended).  After any reachable sequence of operations,
every performance record satisfies
`successful_requests ≤ total_requests`; the claimed average equation
`avg_response_time = total_response_time // successful_requests`
(0 when no successes) additionally holds whenever every success report
carries a positive response time (health-check successes always do).
As stated the claim is false: a success report whose `response_time` is
`None` or `0` increments `successful_requests` without recomputing the
average (see the counterexample). -/
theorem perf_record_invariant :
    (∀ s, Reachable s → perfBoundOK s) ∧ (∀ s, ReachableT s → perfAvgOK s) :=
  ⟨reachable_perfBound, reachableT_perfAvg⟩

theorem perf_record_invariant_witness :
    perfBoundOK (report_proxy_result refreshedPool (some dH) true (some 100) 1) ∧
    perfAvgOK (report_proxy_result refreshedPool (some dH) true (some 100) 1) := by
  constructor
  · exact perf_record_invariant.1 _
      (Relation.ReflTransGen.tail
        (Relation.ReflTransGen.single (Step.refresh initState [dH] 0))
        (Step.report _ (some dH) true (some 100) 1))
  · exact perf_record_invariant.2 _
      (Relation.ReflTransGen.tail
        (Relation.ReflTransGen.single (StepT.refresh initState [dH] 0))
        (StepT.report _ (some dH) true (some 100) 1
          (fun _ => ⟨100, rfl, by decide⟩)))

/-- Counterexample to claim C7 as stated: a success report carrying
1000 ms followed by a success report carrying no response time leaves a
reachable state whose record has `successful_requests = 2`,
`total_response_time = 1000` but `avg_response_time = 1000`, violating
the claimed equation (`1000 // 2 = 500`). -/
theorem perf_record_invariant_cx :
    Reachable c7state ∧
    lookupPerf c7state.performance (proxyKey dH)
      = some { total_requests := 2, successful_requests := 2,
               total_response_time := 1000, avg_response_time := 1000,
               last_success := some 2 } ∧
    ((lookupPerf c7state.performance (proxyKey dH)).map (fun rec => decide (perfA rec)))
      = some false := by
  refine ⟨?_, by decide, by decide⟩
  exact Relation.ReflTransGen.tail (Relation.ReflTransGen.tail
    (Relation.ReflTransGen.single (Step.refresh initState [dH] 0))
    (Step.report _ (some dH) true (some 1000) 1))
    (Step.report _ (some dH) true none 2)

/-- Claim C8 (confirmed).  `get_proxy` returns `None` whenever proxies
are disabled or the active pool is empty, and `report_proxy_result`
silently leaves the state unchanged on a falsy descriptor argument; in
the embedding both are total functions, so neither operation throws. -/
theorem disabled_empty_noop :
    (∀ (s : PMState) (c : Option String) (m : Option Nat) (pick r t : Nat),
      get_proxy false s c m pick r t = none) ∧
    (∀ (s : PMState) (c : Option String) (m : Option Nat) (pick r t : Nat),
      s.activeIdx = [] → get_proxy true s c m pick r t = none) ∧
    (∀ (s : PMState) (b : Bool) (rt : Option Nat) (t : Nat),
      report_proxy_result s none b rt t = s) := by
  refine ⟨?_, ?_, ?_⟩
  · intro s c m pick r t
    simp [get_proxy, get_proxy_idx]
  · intro s c m pick r t h
    simp [get_proxy, get_proxy_idx, h]
  · intro s b rt t
    rfl

theorem disabled_empty_noop_witness :
    get_proxy false sC2 none none 0 0 0 = none ∧
    get_proxy true initState none none 0 0 0 = none ∧
    report_proxy_result initState none true none 0 = initState :=
  ⟨disabled_empty_noop.1 sC2 none none 0 0 0,
   disabled_empty_noop.2.1 initState none none 0 0 0 rfl,
   disabled_empty_noop.2.2 initState true none 0⟩

/-- Claim C9 (confirmed).  A descriptor lacking the `is_active` key is
treated as active: the filter behind every recomputation of the active
view keeps exactly the indices whose descriptor has `is_active` absent
or true, `_load_saved_proxies` recomputes the view with that filter (so
a loaded snapshot entry without the key is eligible for selection), and
in every reachable state the stored view is that derived one. -/
theorem absent_is_active :
    (∀ p : Descriptor, p.is_active = none → isActiveD p = true) ∧
    (∀ (ps : List Descriptor) (i : Nat),
      i ∈ derivedActiveIdx ps ↔ i < ps.length ∧ isActiveD (dget ps i) = true) ∧
    (∀ snap : Snapshot, (load_saved_proxies snap).activeIdx = derivedActiveIdx snap.proxies) ∧
    (∀ s : PMState, Reachable s → s.activeIdx = derivedActiveIdx s.proxies) := by
  refine ⟨?_, mem_derivedActiveIdx, fun snap => rfl, reachable_active⟩
  intro p h
  simp [isActiveD, h]

theorem absent_is_active_witness :
    isActiveD dAbsent = true ∧
    ((0 : Nat) ∈ derivedActiveIdx [dAbsent] ↔
      0 < ([dAbsent] : List Descriptor).length ∧ isActiveD (dget [dAbsent] 0) = true) ∧
    (load_saved_proxies (save_proxies initState 0)).activeIdx
      = derivedActiveIdx initState.proxies ∧
    initState.activeIdx = derivedActiveIdx initState.proxies :=
  ⟨absent_is_active.1 dAbsent rfl,
   absent_is_active.2.1 [dAbsent] 0,
   absent_is_active.2.2.1 (save_proxies initState 0),
   absent_is_active.2.2.2 initState Relation.ReflTransGen.refl⟩

/-- Claim C10 (confirmed).  Reporting a descriptor whose `(host, port)`
does not occur in the proxies list creates or updates only that key's
entry in the performance mapping and leaves `proxies`, the active view,
the blacklist and `last_refresh` unchanged; iterating failure reports
on such a descriptor never blacklists it. -/
theorem report_unknown_frame (s : PMState) (p : Descriptor) (b : Bool)
    (rt : Option Nat) (t : Nat)
    (h : ∀ q ∈ s.proxies, ¬(q.host = p.host ∧ q.port = p.port)) :
    (report_proxy_result s (some p) b rt t).proxies = s.proxies ∧
    (report_proxy_result s (some p) b rt t).activeIdx = s.activeIdx ∧
    (report_proxy_result s (some p) b rt t).blackIdx = s.blackIdx ∧
    (report_proxy_result s (some p) b rt t).last_refresh = s.last_refresh ∧
    (∀ k2, k2 ≠ proxyKey p →
      lookupPerf (report_proxy_result s (some p) b rt t).performance k2
        = lookupPerf s.performance k2) ∧
    (∃ rec, lookupPerf (report_proxy_result s (some p) b rt t).performance (proxyKey p)
        = some rec) ∧
    (∀ n : Nat, (Nat.iterate (fun st => report_proxy_result st (some p) false none t) n s).blackIdx
        = s.blackIdx) := by
  obtain ⟨h1, h2, h3, h4, h5, h6⟩ := report_notfound_frame s p b rt t h
  exact ⟨h1, h2, h3, h4, h5, h6, fun n => (report_notfound_iter p t n s h).1⟩

theorem report_unknown_frame_witness :
    (report_proxy_result refreshedPool (some dX) true none 5).proxies = refreshedPool.proxies ∧
    (report_proxy_result refreshedPool (some dX) true none 5).activeIdx = refreshedPool.activeIdx ∧
    (report_proxy_result refreshedPool (some dX) true none 5).blackIdx = refreshedPool.blackIdx ∧
    (report_proxy_result refreshedPool (some dX) true none 5).last_refresh
      = refreshedPool.last_refresh ∧
    (∀ k2, k2 ≠ proxyKey dX →
      lookupPerf (report_proxy_result refreshedPool (some dX) true none 5).performance k2
        = lookupPerf refreshedPool.performance k2) ∧
    (∃ rec, lookupPerf (report_proxy_result refreshedPool (some dX) true none 5).performance
        (proxyKey dX) = some rec) ∧
    (∀ n : Nat, (Nat.iterate (fun st => report_proxy_result st (some dX) false none 5) n
        refreshedPool).blackIdx = refreshedPool.blackIdx) :=
  report_unknown_frame refreshedPool dX true none 5 (by decide)
